import Mathlib

/-!
Verification of the PBpool Stratum mining-pool server (`src/stratum.py`,
`src/utils.py`, `src/models.py`) against its natural-language specification.

The Python source is shallowly embedded: byte strings become `List Nat`
(each entry a byte value `< 256`), hex strings become `List Char`,
Python floats become exact rationals `ℚ`, and the stateful request
handler becomes a pure step function returning the new session, the
optional JSON-RPC reply, the out-of-band messages pushed on the socket,
and the shares handed to the accounting layer.
-/

namespace PBpool

set_option maxRecDepth 200000

/-- Byte strings (`bytes` in Python) as lists of byte values. -/
abbrev Bytes := List Nat

/-! ## SHA-256 (FIPS 180-4), as used by `hashlib.sha256` in `utils.double_sha256`.

Arithmetic is on `Nat` with explicit reduction modulo `2^32`. -/

/-- `2^32`, the word modulus. -/
def M32 : Nat := 4294967296

/-- Right-rotation of a 32-bit word held in a `Nat`. -/
def rotr32 (x n : Nat) : Nat :=
  ((x >>> n) ||| (x <<< (32 - n))) &&& 4294967295

/-- SHA-256 `Ch(e,f,g)`. -/
def shaCh (e f g : Nat) : Nat := (e &&& f) ^^^ ((4294967295 ^^^ e) &&& g)

/-- SHA-256 `Maj(a,b,c)`. -/
def shaMaj (a b c : Nat) : Nat := (a &&& b) ^^^ (a &&& c) ^^^ (b &&& c)

/-- SHA-256 `Σ₀`. -/
def bigSigma0 (x : Nat) : Nat := rotr32 x 2 ^^^ rotr32 x 13 ^^^ rotr32 x 22

/-- SHA-256 `Σ₁`. -/
def bigSigma1 (x : Nat) : Nat := rotr32 x 6 ^^^ rotr32 x 11 ^^^ rotr32 x 25

/-- SHA-256 `σ₀`. -/
def smallSigma0 (x : Nat) : Nat := rotr32 x 7 ^^^ rotr32 x 18 ^^^ (x >>> 3)

/-- SHA-256 `σ₁`. -/
def smallSigma1 (x : Nat) : Nat := rotr32 x 17 ^^^ rotr32 x 19 ^^^ (x >>> 10)

/-- The first sixteen SHA-256 round constants. -/
def shaK0 : List Nat :=
  [0x428A2F98, 0x71374491, 0xB5C0FBCF, 0xE9B5DBA5,
   0x3956C25B, 0x59F111F1, 0x923F82A4, 0xAB1C5ED5,
   0xD807AA98, 0x12835B01, 0x243185BE, 0x550C7DC3,
   0x72BE5D74, 0x80DEB1FE, 0x9BDC06A7, 0xC19BF174]

/-- SHA-256 round constants 16–31. -/
def shaK1 : List Nat :=
  [0xE49B69C1, 0xEFBE4786, 0x0FC19DC6, 0x240CA1CC,
   0x2DE92C6F, 0x4A7484AA, 0x5CB0A9DC, 0x76F988DA,
   0x983E5152, 0xA831C66D, 0xB00327C8, 0xBF597FC7,
   0xC6E00BF3, 0xD5A79147, 0x06CA6351, 0x14292967]

/-- SHA-256 round constants 32–47. -/
def shaK2 : List Nat :=
  [0x27B70A85, 0x2E1B2138, 0x4D2C6DFC, 0x53380D13,
   0x650A7354, 0x766A0ABB, 0x81C2C92E, 0x92722C85,
   0xA2BFE8A1, 0xA81A664B, 0xC24B8B70, 0xC76C51A3,
   0xD192E819, 0xD6990624, 0xF40E3585, 0x106AA070]

/-- SHA-256 round constants 48–63. -/
def shaK3 : List Nat :=
  [0x19A4C116, 0x1E376C08, 0x2748774C, 0x34B0BCB5,
   0x391C0CB3, 0x4ED8AA4A, 0x5B9CCA4F, 0x682E6FF3,
   0x748F82EE, 0x78A5636F, 0x84C87814, 0x8CC70208,
   0x90BEFFFA, 0xA4506CEB, 0xBEF9A3F7, 0xC67178F2]

/-- The 64 SHA-256 round constants. -/
def shaK : List Nat := shaK0 ++ shaK1 ++ shaK2 ++ shaK3

/-- The SHA-256 initial hash state `H₀ … H₇`. -/
def shaIV : List Nat :=
  [0x6A09E667, 0xBB67AE85, 0x3C6EF372, 0xA54FF53A,
   0x510E527F, 0x9B05688C, 0x1F83D9AB, 0x5BE0CD19]

/-- Working state of the compression function. -/
structure ShaState where
  a : Nat
  b : Nat
  c : Nat
  d : Nat
  e : Nat
  f : Nat
  g : Nat
  h : Nat

/-- One compression round with round constant `kw` and schedule word `w`. -/
def shaRound (kw w : Nat) (s : ShaState) : ShaState :=
  let t1 := (s.h + bigSigma1 s.e + shaCh s.e s.f s.g + kw + w) % M32
  let t2 := (bigSigma0 s.a + shaMaj s.a s.b s.c) % M32
  ⟨(t1 + t2) % M32, s.a, s.b, s.c, (s.d + t1) % M32, s.e, s.f, s.g⟩

/-- The 64 rounds, driven by the list of remaining round constants.
`win` is the sliding 16-word window of the message schedule: at round `t`
it holds `W[t] … W[t+15]`, so the freshly derived word is
`σ₁ W[t+14] + W[t+9] + σ₀ W[t+1] + W[t]`. -/
def shaRounds : List Nat → List Nat → ShaState → ShaState
  | [], _, s => s
  | kw :: ks, win, s =>
      let w := win.headD 0
      let wNew := (smallSigma1 (win.getD 14 0) + win.getD 9 0 +
                   smallSigma0 (win.getD 1 0) + win.getD 0 0) % M32
      shaRounds ks (win.tail ++ [wNew]) (shaRound kw w s)

/-- Compress one 16-word message block into the 8-word chaining value. -/
def shaCompress (hv : List Nat) (block : List Nat) : List Nat :=
  let s0 : ShaState := ⟨hv.getD 0 0, hv.getD 1 0, hv.getD 2 0, hv.getD 3 0,
                        hv.getD 4 0, hv.getD 5 0, hv.getD 6 0, hv.getD 7 0⟩
  let s := shaRounds shaK block s0
  [(hv.getD 0 0 + s.a) % M32, (hv.getD 1 0 + s.b) % M32,
   (hv.getD 2 0 + s.c) % M32, (hv.getD 3 0 + s.d) % M32,
   (hv.getD 4 0 + s.e) % M32, (hv.getD 5 0 + s.f) % M32,
   (hv.getD 6 0 + s.g) % M32, (hv.getD 7 0 + s.h) % M32]

/-- Big-endian serialization of `n` in exactly `k` bytes. -/
def beBytes : Nat → Nat → Bytes
  | 0, _ => []
  | k + 1, n => beBytes k (n >>> 8) ++ [n &&& 255]

/-- Group a byte string into big-endian 32-bit words. -/
def toWordsBE : Bytes → List Nat
  | b0 :: b1 :: b2 :: b3 :: rest =>
      (((b0 <<< 8 ||| b1) <<< 8 ||| b2) <<< 8 ||| b3) :: toWordsBE rest
  | _ => []

/-- SHA-256 padding: append `0x80`, zero bytes up to 56 mod 64, then the
64-bit big-endian bit length. -/
def shaPad (msg : Bytes) : Bytes :=
  msg ++ [128] ++ List.replicate ((120 - msg.length % 64 - 1) % 64) 0 ++
    beBytes 8 (8 * msg.length)

/-- Fold the compression function over consecutive 16-word blocks. -/
def shaBlocks (hv : List Nat) : List Nat → List Nat
  | w0 :: w1 :: w2 :: w3 :: w4 :: w5 :: w6 :: w7 ::
    w8 :: w9 :: w10 :: w11 :: w12 :: w13 :: w14 :: w15 :: rest =>
      shaBlocks (shaCompress hv
        [w0, w1, w2, w3, w4, w5, w6, w7, w8, w9, w10, w11, w12, w13, w14, w15]) rest
  | _ => hv

/-- SHA-256 of a byte string, as a 32-byte string. -/
def sha256 (msg : Bytes) : Bytes :=
  ((shaBlocks shaIV (toWordsBE (shaPad msg))).map (beBytes 4)).flatten

/-- `utils.double_sha256`: `SHA256(SHA256(data))`. -/
def double_sha256 (data : Bytes) : Bytes := sha256 (sha256 data)

/-- FIPS 180-4 test vector: SHA-256 of `"abc"`. -/
theorem sha256_abc :
    sha256 [0x61, 0x62, 0x63] =
      [0xba, 0x78, 0x16, 0xbf, 0x8f, 0x01, 0xcf, 0xea,
       0x41, 0x41, 0x40, 0xde, 0x5d, 0xae, 0x22, 0x23,
       0xb0, 0x03, 0x61, 0xa3, 0x96, 0x17, 0x7a, 0x9c,
       0xb4, 0x10, 0xff, 0x61, 0xf2, 0x00, 0x15, 0xad] := by
  decide

/-- SHA-256 of the empty string. -/
theorem sha256_empty :
    sha256 [] =
      [0xe3, 0xb0, 0xc4, 0x42, 0x98, 0xfc, 0x1c, 0x14,
       0x9a, 0xfb, 0xf4, 0xc8, 0x99, 0x6f, 0xb9, 0x24,
       0x27, 0xae, 0x41, 0xe4, 0x64, 0x9b, 0x93, 0x4c,
       0xa4, 0x95, 0x99, 0x1b, 0x78, 0x52, 0xb8, 0x55] := by
  decide

/-! ## Hex strings and little-endian packing

Hex strings (`str` values holding hex in the Python) are `String`/`List Char`;
`struct.pack` of an in-range integer becomes an explicit little-endian byte list. -/

/-- Value of a hex digit character, as `int(_, 16)` reads it (valid digits only;
the Python raises `ValueError` otherwise, a case no claim exercises). -/
def hexCharVal (c : Char) : Nat :=
  if 48 ≤ c.toNat ∧ c.toNat ≤ 57 then c.toNat - 48
  else if 97 ≤ c.toNat ∧ c.toNat ≤ 102 then c.toNat - 87
  else if 65 ≤ c.toNat ∧ c.toNat ≤ 70 then c.toNat - 55
  else 0

/-- Lowercase hex digit character for a nibble, as Python's `hex`/`%x` print it. -/
def hexDigitChar (n : Nat) : Char :=
  if n < 10 then Char.ofNat (48 + n) else Char.ofNat (87 + n)

/-- `bytes.fromhex` on a list of hex characters (valid, even-length input). -/
def hexPairs : List Char → Bytes
  | c1 :: c2 :: rest => (16 * hexCharVal c1 + hexCharVal c2) :: hexPairs rest
  | _ => []

/-- `bytes.fromhex` on a hex string. -/
def hexStrToBytes (s : String) : Bytes := hexPairs s.toList

/-- `bytes.hex()`: two lowercase hex characters per byte. -/
def bytesToHex (b : Bytes) : List Char :=
  (b.map fun x => [hexDigitChar (x / 16), hexDigitChar (x % 16)]).flatten

/-- `bytes.hex()` as a `String`. -/
def bytesToHexStr (b : Bytes) : String := ⟨bytesToHex b⟩

/-- `int(s, 16)` on a hex string. -/
def hexStrToNat (s : String) : Nat :=
  s.toList.foldl (fun acc c => 16 * acc + hexCharVal c) 0

/-- `int.from_bytes(b, 'big')`. -/
def beBytesToNat (b : Bytes) : Nat := b.foldl (fun acc x => 256 * acc + x) 0

/-- `struct.pack('<H', n)` for `n < 2^16`. -/
def le16 (n : Nat) : Bytes := [n % 256, n / 256 % 256]

/-- `struct.pack('<L', n)` for `n < 2^32`. -/
def le32 (n : Nat) : Bytes :=
  [n % 256, n / 256 % 256, n / 65536 % 256, n / 16777216 % 256]

/-- `struct.pack('<Q', n)` for `n < 2^64`. -/
def le64 (n : Nat) : Bytes := le32 (n % 4294967296) ++ le32 (n / 4294967296)

/-- `str.encode()` of an ASCII string. -/
def strBytes (s : String) : Bytes := s.toList.map Char.toNat

/-- `f"{n:08x}"`: eight zero-padded lowercase hex digits (values `< 2^32`). -/
def natToHex8 (n : Nat) : String :=
  ⟨[hexDigitChar (n >>> 28 &&& 15), hexDigitChar (n >>> 24 &&& 15),
    hexDigitChar (n >>> 20 &&& 15), hexDigitChar (n >>> 16 &&& 15),
    hexDigitChar (n >>> 12 &&& 15), hexDigitChar (n >>> 8 &&& 15),
    hexDigitChar (n >>> 4 &&& 15), hexDigitChar (n &&& 15)]⟩

/-! ## Block templates (the dict returned by `bitcoin_rpc.get_block_template`) -/

/-- One entry of `template['transactions']`: hex-encoded raw data and the
node-reported hex transaction hash. -/
structure TxEntry where
  data : String
  hash : String
deriving DecidableEq

/-- The block-template fields the Stratum server reads. -/
structure BlockTemplate where
  version : Nat
  previousblockhash : String
  bits : String
  curtime : Nat
  height : Nat
  coinbasevalue : Nat
  target : String
  transactions : List TxEntry
deriving DecidableEq

/-! ## Coinbase, Merkle and header construction (`stratum.py`) -/

/-- BIP-34 height push from `StratumServer.build_coinbase_tx` (lines 288–295). -/
def heightEncode (height : Nat) : Bytes :=
  if height < 17 then [height]
  else if height < 128 then [1, height]
  else if height < 32768 then [2] ++ le16 height
  else [4] ++ le32 height

/-- The arbitrary tag appended to the coinbase input script. -/
def arbitraryData : Bytes := strBytes "/stratum/"

/-- Whether the first list leads the second (pattern, then subject). -/
def leadsWith : List Char → List Char → Bool
  | [], _ => true
  | _, [] => false
  | p :: ps, c :: cs => p == c && leadsWith ps cs

/-- Python's `str.startswith` on one pattern. -/
def pyStartsWith (s pat : String) : Bool := leadsWith pat.toList s.toList

/-- `StratumServer.build_coinbase_tx` (lines 282–322). `extranonce1` is the
8-character hex string, inserted via `str.encode()` as 8 ASCII bytes;
`extranonce2` is raw bytes. Both address branches of the source build the
same placeholder P2PKH script. -/
def build_coinbase_tx (tpl : BlockTemplate) (extranonce1 : String)
    (extranonce2 : Bytes) (worker_address : String) : Bytes :=
  let height_bytes := heightEncode tpl.height
  let coinbase_script := height_bytes ++ strBytes extranonce1 ++ extranonce2 ++ arbitraryData
  let script : Bytes :=
    if pyStartsWith worker_address "bc1" || pyStartsWith worker_address "tb1" then
      [0x19, 0x76, 0xa9, 0x14] ++ List.replicate 20 0 ++ [0x88, 0xac]
    else
      [0x19, 0x76, 0xa9, 0x14] ++ List.replicate 20 0 ++ [0x88, 0xac]
  le32 1 ++ [1] ++ List.replicate 32 0 ++ List.replicate 4 255 ++
    [coinbase_script.length] ++ coinbase_script ++ List.replicate 4 255 ++
    [1] ++ le64 tpl.coinbasevalue ++ [script.length] ++ script ++ List.replicate 4 0

/-- `utils.build_merkle_root` (lines 102–108): a left fold that chains
`dSHA256(root ++ reverse(fromhex(tx.hash)))` over the template transactions. -/
def build_merkle_root (coinbase_hash : Bytes) (transactions : List TxEntry) : Bytes :=
  transactions.foldl
    (fun root tx => double_sha256 (root ++ (hexStrToBytes tx.hash).reverse)) coinbase_hash

/-- One pairing pass of the branch loop: combine consecutive pairs with
double SHA-256 (`next_level` of lines 341–345). -/
def pairUp : List Bytes → List Bytes
  | a :: b :: rest => double_sha256 (a ++ b) :: pairUp rest
  | _ => []

/-- The `while len(level) > 1` loop of `calculate_merkle_branch` (lines
334–345): pad an odd level with its last element, record `level[1].hex()`,
pair-combine. The fuel argument (instantiated with the level length, which
strictly dominates the iteration count) renders the while loop structurally
recursive. -/
def branchLoop : Nat → List Bytes → List String
  | 0, _ => []
  | fuel + 1, level =>
      if level.length ≤ 1 then []
      else
        let lvl := if level.length % 2 = 1 then level ++ [level.getLastD []] else level
        bytesToHexStr (lvl.getD 1 []) :: branchLoop fuel (pairUp lvl)

/-- `StratumServer.calculate_merkle_branch` (lines 324–347). -/
def calculate_merkle_branch (transactions : List TxEntry) : List String :=
  if transactions.isEmpty then []
  else
    let txHashes := transactions.map fun tx => (hexStrToBytes tx.hash).reverse
    (branchLoop txHashes.length txHashes).reverse

/-- Modelled from the spec: the value a Stratum client computes from the
`mining.notify` fields — hash the reassembled coinbase, then fold over the
sent merkle branch with `h, sib ↦ dSHA256(h ++ sib)`. -/
def clientMerkleRoot (coinbase_hash : Bytes) (merkle_branch : List String) : Bytes :=
  merkle_branch.foldl (fun h sib => double_sha256 (h ++ hexStrToBytes sib)) coinbase_hash

/-- Header assembly of `validate_and_submit_block` (lines 226–231):
`version_LE ++ reverse(prev_hash) ++ reverse(merkle_root) ++ ntime_LE ++
reverse(bits) ++ nonce_LE`. -/
def buildHeader (tpl : BlockTemplate) (merkle_root : Bytes) (ntime nonce : Nat) : Bytes :=
  le32 tpl.version ++ (hexStrToBytes tpl.previousblockhash).reverse ++
    merkle_root.reverse ++ le32 ntime ++ (hexStrToBytes tpl.bits).reverse ++ le32 nonce

/-- The transaction-count field written by `validate_and_submit_block`
(lines 252–258). The source has no `0xFF`/u64 arm: its `else` packs with
`struct.pack('<L', ·)`, which raises `struct.error` for `n ≥ 2^32` (the
exception is caught by the enclosing handler) — hence `none` there. -/
def packTxCount (n : Nat) : Option Bytes :=
  if n < 0xfd then some [n]
  else if n < 0x10000 then some ([0xfd] ++ le16 n)
  else if n < 0x100000000 then some ([0xfe] ++ le32 n)
  else none

/-- `StratumServer.validate_and_submit_block` (lines 205–280), with the RPC
effects made explicit: the template is a parameter, and the result is the
serialized block handed to `submit_block`, or `none` when the hash does not
meet the network target (or serialization raises). The `job_id` parameter of
the source is never read, so it is omitted. -/
def validate_and_submit_block (tpl : BlockTemplate) (extranonce1 : String)
    (worker_name : String) (extra_nonce2 ntime nonce : String) : Option Bytes :=
  let coinbase_tx := build_coinbase_tx tpl extranonce1 (hexStrToBytes extra_nonce2) worker_name
  let coinbase_hash := double_sha256 coinbase_tx
  let merkle_root := build_merkle_root coinbase_hash tpl.transactions
  let header := buildHeader tpl merkle_root (hexStrToNat ntime) (hexStrToNat nonce)
  let block_hash := double_sha256 header
  let network_target := hexStrToNat tpl.target
  let block_hash_int := beBytesToNat block_hash
  if block_hash_int < network_target then
    match packTxCount (tpl.transactions.length + 1) with
    | some cnt =>
        some (header ++ cnt ++ coinbase_tx ++
          (tpl.transactions.map fun tx => hexStrToBytes tx.data).flatten)
    | none => none
  else none

/-! ## Sessions, vardiff and the protocol engine (`stratum.py`)

Python floats (difficulties, timestamps) are modelled as exact rationals.
`max`/`min`/`abs` are Python's, written as explicit conditionals so that the
definitions evaluate by kernel reduction. -/

/-- Python `max(a, b)`. -/
def maxQ (a b : ℚ) : ℚ := if a < b then b else a

/-- Python `min(a, b)`. -/
def minQ (a b : ℚ) : ℚ := if b < a then b else a

/-- Python `abs(x)`. -/
def absQ (x : ℚ) : ℚ := if x < 0 then -x else x

/-- The difficulty computed by `adjust_client_difficulty` (lines 366–388):
the branch table on the inter-arrival time, followed by the 1e8 cap. -/
def newDifficulty (current_difficulty time_diff : ℚ) : ℚ :=
  let nd :=
    if time_diff < 1 then
      current_difficulty * maxQ 10 (30 / maxQ time_diff (1/100))
    else if time_diff < 5 then
      current_difficulty * maxQ 5 (30 / maxQ time_diff (1/10))
    else if time_diff < 15 then
      current_difficulty * 2
    else if 60 < time_diff then
      maxQ 1000 (current_difficulty * (7/10))
    else
      current_difficulty
  minQ nd 100000000

/-- Per-connection session state (the `self.clients[client_id]` dict,
lines 64–73). `extranonce1` is the 8-character hex string derived once from
the session id; the Python recomputes the same string at each use. -/
structure Session where
  subscribed : Bool
  authorized : Bool
  worker : Option String
  extranonce1 : String
  difficulty : ℚ
  share_times : List ℚ
  last_share_time : ℚ
deriving DecidableEq

/-- The session created in `handle_client` (difficulty 10000, no worker). -/
def initSession (extranonce1 : String) (now : ℚ) : Session :=
  ⟨false, false, none, extranonce1, 10000, [], now⟩

/-- The `result` member of a JSON-RPC reply, in the shapes the server emits. -/
inductive RpcResult
  | rNull
  | rBool (b : Bool)
  | rSubscribe (extranonce1 : String) (extranonce2_size : Nat)
deriving DecidableEq

/-- A JSON-RPC reply: echoed id, result, and optional `[code, message, null]`. -/
structure Reply where
  id : Nat
  result : RpcResult
  error : Option (Nat × String)
deriving DecidableEq

/-- A server-to-client frame. -/
inductive Msg
  | reply (r : Reply)
  | set_difficulty (d : ℚ)
  | notify (job_id : String) (prevhash : String) (coinb1 : String) (coinb2 : String)
      (merkle_branch : List String) (version : String) (nbits : String)
      (ntime : String) (clean_jobs : Bool)
deriving DecidableEq

/-- The fixed-offset coinbase split of `send_job_to_client` (lines 445–451):
`coinb1 = hex[:90]`, `coinb2 = hex[106:]`, with a short-coinbase fallback. -/
def coinbaseSplit (coinbase_hex : List Char) : List Char × List Char :=
  if 90 < coinbase_hex.length then
    (coinbase_hex.take 90, if 106 < coinbase_hex.length then coinbase_hex.drop 106 else [])
  else
    (coinbase_hex, [])

/-- `StratumServer.send_job_to_client` (lines 419–480) as the `mining.notify`
frame it pushes: template from the provider is a parameter; `clean_jobs` is
the literal `True` of line 470. The `worker` fallback string is the literal
of line 426. -/
def send_job_to_client (tpl : BlockTemplate) (s : Session) : Msg :=
  let worker_address := s.worker.getD "tb1q8e8sddh2yx8j795k5up2tgchlgyj0z2mxuna67"
  let extranonce2 : Bytes := List.replicate 4 0
  let coinbase_tx := build_coinbase_tx tpl s.extranonce1 extranonce2 worker_address
  let coinbase_hex := bytesToHex coinbase_tx
  let split := coinbaseSplit coinbase_hex
  Msg.notify ("job_" ++ toString tpl.height) tpl.previousblockhash
    ⟨split.1⟩ ⟨split.2⟩ (calculate_merkle_branch tpl.transactions)
    (natToHex8 tpl.version) tpl.bits (natToHex8 tpl.curtime) true

/-- `StratumServer.adjust_client_difficulty` (lines 349–396): update the
share-time ring and the difficulty, and return the frames pushed when the
change exceeds 5% (a `set_difficulty` followed by a fresh job). -/
def adjust_client_difficulty (tpl : BlockTemplate) (now : ℚ) (s : Session) :
    Session × List Msg :=
  let time_diff := now - s.last_share_time
  let times0 := s.share_times ++ [time_diff]
  let times := if 5 < times0.length then times0.drop (times0.length - 5) else times0
  let current_difficulty := s.difficulty
  let nd := newDifficulty current_difficulty time_diff
  let s' := { s with share_times := times, last_share_time := now, difficulty := nd }
  if current_difficulty * (5/100) < absQ (nd - current_difficulty) then
    (s', [Msg.set_difficulty nd, send_job_to_client tpl s'])
  else
    (s', [])

/-- Server configuration consumed by the protocol engine. -/
structure ServerConfig where
  join_password : String
deriving DecidableEq

/-- An incoming request, dispatched on its `method` field; `params` is the
raw JSON string array. -/
inductive Request
  | subscribe (id : Nat)
  | authorize (id : Nat) (params : List String)
  | submit (id : Nat) (params : List String)
  | other (id : Nat)
deriving DecidableEq

/-- Effect of one request on a session: the new session, the reply returned
to `handle_client` (sent after the out-of-band frames), the frames written
directly to the socket, the `(worker, nonce)` pairs handed to
`process_share`, and the serialized block handed to `submit_block`, if any. -/
structure StepOut where
  session : Session
  reply : Option Reply
  sent : List Msg
  credited : List (String × String)
  submitted : Option Bytes
deriving DecidableEq

/-- `StratumServer.handle_stratum_request` (lines 112–203). The template
provider and the clock are parameters; everything else follows the source
branch for branch. On `mining.authorize` with fewer than two params the
Python falls through every branch and returns `None`: no reply, no state
change. On `mining.submit` the code validates, credits and adjusts without
any hash/target/duplicate check gating the reply. -/
def handle_stratum_request (cfg : ServerConfig) (tpl : BlockTemplate) (now : ℚ)
    (s : Session) (req : Request) : StepOut :=
  match req with
  | .subscribe id =>
      ⟨{ s with subscribed := true },
        some ⟨id, .rSubscribe s.extranonce1 4, none⟩, [], [], none⟩
  | .authorize id params =>
      if 2 ≤ params.length then
        let worker_name := params.getD 0 ""
        let password := params.getD 1 ""
        if password = cfg.join_password then
          let s' := { s with authorized := true, worker := some worker_name }
          ⟨s', none,
            [Msg.reply ⟨id, .rBool true, none⟩, Msg.set_difficulty 10000,
              send_job_to_client tpl s'],
            [], none⟩
        else
          ⟨s, some ⟨id, .rBool false, some (21, "Unauthorized worker")⟩, [], [], none⟩
      else
        ⟨s, none, [], [], none⟩
  | .submit id params =>
      if 5 ≤ params.length ∧ s.authorized then
        let worker_name := params.getD 0 ""
        let extra_nonce2 := params.getD 2 ""
        let ntime := params.getD 3 ""
        let nonce := params.getD 4 ""
        let blk := validate_and_submit_block tpl s.extranonce1 worker_name
          extra_nonce2 ntime nonce
        let adj := adjust_client_difficulty tpl now s
        ⟨adj.1, some ⟨id, .rBool true, none⟩, adj.2, [(worker_name, nonce)], blk⟩
      else
        ⟨s, some ⟨id, .rBool false, some (23, "Unauthorized or invalid share")⟩,
          [], [], none⟩
  | .other id =>
      ⟨s, some ⟨id, .rNull, some (20, "Method not found")⟩, [], [], none⟩

/-! ## Share accounting (`models.py`) -/

/-- One entry of a miner's `blocks` list. -/
structure BlockCredit where
  height : Nat
  hash : String
  value : ℚ
  status : String
deriving DecidableEq

/-- The per-worker record kept in `miners.json` (timestamp strings omitted). -/
structure MinerRec where
  shares : Nat
  blocks : List BlockCredit
  immature_balance : ℚ
  paid : ℚ
deriving DecidableEq

/-- The record created for a first-time worker (lines 48–56). -/
def newMinerRec : MinerRec := ⟨0, [], 0, 0⟩

/-- The dict returned by `process_share`. -/
structure ShareResult where
  block_found : Bool
  reward : ℚ
deriving DecidableEq

/-- `models.process_share` (lines 44–80) on one worker's record (`none` when
the worker is not yet in `miners.json`). The Python defaults are
`height = 1`, `pool_fee = 0.02`; `blockLabel` stands for the
`f"block_{int(time.time())}"` string. The `nonce` argument is received and
never read — crediting depends only on the share counter. -/
def process_share (m : Option MinerRec) (nonce : String) (height : Nat)
    (pool_fee : ℚ) (blockLabel : String) : MinerRec × ShareResult :=
  let rec0 := m.getD newMinerRec
  let rec1 := { rec0 with shares := rec0.shares + 1 }
  if rec1.shares % 1000 = 0 then
    let block_reward := (25/8) * (1 - pool_fee)
    ({ rec1 with
        blocks := rec1.blocks ++ [⟨height, blockLabel, block_reward, "immature"⟩],
        immature_balance := rec1.immature_balance + block_reward },
      ⟨true, block_reward⟩)
  else
    (rec1, ⟨false, 0⟩)

/-! ## Spec-side quantities used for comparison -/

/-- The Bitcoin difficulty-1 target constant of `utils.difficulty_to_bits`. -/
def max_target : Nat :=
  0x00000000ffff0000000000000000000000000000000000000000000000000000

/-- Modelled from the spec: the pool share target derived from the session
difficulty (`max_target / difficulty`). `stratum.py` computes no pool target
on its submit path — this definition exists to state what the spec demands. -/
def specPoolTarget (difficulty : Nat) : Nat := max_target / difficulty

/-- The claim's `H`: double-SHA-256 of the 80-byte header, byte-reversed and
read as a big-endian 256-bit integer. -/
def headerHashValue (header : Bytes) : Nat :=
  beBytesToNat (double_sha256 header).reverse

/-- Modelled from the claim: the full Bitcoin varint encoding, including the
`0xFF ++ u64` arm that the source lacks. -/
def specVarint (n : Nat) : Bytes :=
  if n < 0xfd then [n]
  else if n < 0x10000 then [0xfd] ++ le16 n
  else if n < 0x100000000 then [0xfe] ++ le32 n
  else [0xff] ++ le64 n

/-- Decoder for the varint encoding, for the round-trip property. -/
def decodeVarint : Bytes → Option Nat
  | [b] => if b < 0xfd then some b else none
  | [0xfd, a, b] => some (a + 256 * b)
  | [0xfe, a, b, c, d] => some (a + 256 * b + 65536 * c + 16777216 * d)
  | [0xff, a, b, c, d, e, f, g, h] =>
      some (a + 256 * b + 65536 * c + 16777216 * d + 4294967296 * e +
        1099511627776 * f + 281474976710656 * g + 72057594037927936 * h)
  | _ => none

/-- Modelled from the claim: the vardiff adjustment table of C6 (`Dt < 1`,
`Dt < 5`, `Dt < 15`, `15 ≤ Dt ≤ 45`, `Dt > 60`; the claim leaves `(45, 60]`
unspecified and the theorem is restricted away from it). -/
def specVardiffTable (d dt : ℚ) : ℚ :=
  if dt < 1 then d * maxQ 10 (30 / maxQ dt (1/100))
  else if dt < 5 then d * maxQ 5 (30 / maxQ dt (1/10))
  else if dt < 15 then d * 2
  else if dt ≤ 45 then d
  else if 60 < dt then maxQ 1000 (d * (7/10))
  else d

/-- Modelled from the claim: clamping to `[Dmin, Dmax] = [1000, 1e8]`. -/
def specClamp (x : ℚ) : ℚ := minQ (maxQ x 1000) 100000000

/-- The `clean_jobs` field of a frame, when it is a `mining.notify`. -/
def cleanJobsOf : Msg → Option Bool
  | .notify _ _ _ _ _ _ _ _ c => some c
  | _ => none

/-! ## Concrete fixtures used in counterexamples and witnesses -/

/-- A configuration with pool password `"pw"`. -/
def cfg0 : ServerConfig := ⟨"pw"⟩

/-- Sixty-four zero hex characters. -/
def zeros64 : String :=
  "0000000000000000000000000000000000000000000000000000000000000000"

/-- Sixty-four `f` hex characters (the trivially easy network target). -/
def effs64 : String :=
  "ffffffffffffffffffffffffffffffffffffffffffffffffffffffffffffffff"

/-- A transaction-free template with a trivially easy network target. -/
def tplEasy : BlockTemplate :=
  ⟨536870912, zeros64, "207fffff", 1700000000, 1, 625000000, effs64, []⟩

/-- A template identical to `tplEasy` but carrying one transaction. -/
def tpl1 : BlockTemplate :=
  ⟨536870912, zeros64, "207fffff", 1700000000, 1, 625000000, effs64,
   [⟨"0100", "1111111111111111111111111111111111111111111111111111111111111111"⟩]⟩

/-- An authorized session at the initial difficulty 10000. -/
def sAuth : Session := ⟨true, true, some "miner1", "0000abcd", 10000, [], 0⟩

/-- A subscribed but not authorized session. -/
def sUnauth : Session := ⟨true, false, none, "0000abcd", 10000, [], 0⟩

/-- A well-formed `mining.submit` params array. -/
def submitParams : List String :=
  ["miner1", "job_1", "deadbeef", "65f00000", "12345678"]

/-! ## Claim theorems -/

/-- Claim C2 (refuted; the code is the bug): on a template with a single
transaction, the server's reassembly path chains
`dSHA256(coinbase_hash ++ reversed tx hash)` (`utils.build_merkle_root`),
while `calculate_merkle_branch` sends the client an *empty* branch (its loop
needs at least two transaction hashes), so the client's fold returns the
coinbase hash itself. The two 32-byte values differ, already before the
header is hashed. -/
theorem C2_server_root_differs_from_client_root :
    build_merkle_root
        (double_sha256 (build_coinbase_tx tpl1 "0000abcd" (hexStrToBytes "deadbeef") "miner1"))
        tpl1.transactions ≠
      clientMerkleRoot
        (double_sha256 (build_coinbase_tx tpl1 "0000abcd" (hexStrToBytes "deadbeef") "miner1"))
        (calculate_merkle_branch tpl1.transactions) := by
  decide

/-- Claim C3 (refuted; the code is the bug): `send_job_to_client` splits the
coinbase hex at the fixed offsets `[:90]` and `[106:]` instead of at the
actual extranonce2 position, so `coinb1 ++ extranonce2_hex ++ coinb2` does
not re-form the coinbase transaction. Concretely, at height 1 the 4-byte
placeholder sits at hex offset 104, and the fixed split chops into the
extranonce1 region instead. -/
theorem C3_coinbase_split_does_not_reassemble :
    (coinbaseSplit (bytesToHex (build_coinbase_tx tplEasy "0000abcd"
        (List.replicate 4 0) "miner1"))).1 ++
      "deadbeef".toList ++
      (coinbaseSplit (bytesToHex (build_coinbase_tx tplEasy "0000abcd"
        (List.replicate 4 0) "miner1"))).2 ≠
    bytesToHex (build_coinbase_tx tplEasy "0000abcd"
      (hexStrToBytes "deadbeef") "miner1") := by
  decide

/-- Claim C9 (refuted; the code is the bug): a `mining.authorize` whose
params array has fewer than two entries is not rejected with a
`ProtocolError` that closes the connection — `handle_stratum_request` falls
through every branch and returns `None`, so no reply is produced, nothing is
sent, the session is untouched, and `handle_client` keeps the connection
open waiting for the next line. -/
theorem C9_underarity_authorize_silently_ignored :
    handle_stratum_request cfg0 tplEasy 1 (initSession "0000abcd" 0) (.authorize 3 []) =
      ⟨initSession "0000abcd" 0, none, [], [], none⟩ ∧
    handle_stratum_request cfg0 tplEasy 1 (initSession "0000abcd" 0)
        (.authorize 4 ["miner1"]) =
      ⟨initSession "0000abcd" 0, none, [], [], none⟩ := by
  constructor <;> rfl

/-- Claim C10 (confirmed): `models.process_share` increments the worker's
share counter unconditionally; a "block found" is declared exactly when the
incremented counter is a multiple of 1000, crediting `3.125 * (1 - pool_fee)`
to the immature balance; and the result is independent of the submitted
nonce — no hash or target enters the accounting. -/
theorem C10_share_accounting_by_counter (m : Option MinerRec)
    (n1 n2 blockLabel : String) (height : Nat) (pool_fee : ℚ) :
    (process_share m n1 height pool_fee blockLabel).1.shares =
        (m.getD newMinerRec).shares + 1 ∧
    ((process_share m n1 height pool_fee blockLabel).2.block_found = true ↔
        ((m.getD newMinerRec).shares + 1) % 1000 = 0) ∧
    (process_share m n1 height pool_fee blockLabel).1.immature_balance =
        (m.getD newMinerRec).immature_balance +
          (if ((m.getD newMinerRec).shares + 1) % 1000 = 0
           then (25/8) * (1 - pool_fee) else 0) ∧
    (process_share m n1 height pool_fee blockLabel).2.reward =
        (if ((m.getD newMinerRec).shares + 1) % 1000 = 0
         then (25/8) * (1 - pool_fee) else 0) ∧
    process_share m n1 height pool_fee blockLabel =
      process_share m n2 height pool_fee blockLabel := by
  unfold process_share
  split <;> simp_all

/-! ### Helper lemmas about the submit path -/

/-- The vardiff adjustment never touches the authorization flag. -/
theorem adjust_authorized (tpl : BlockTemplate) (now : ℚ) (s : Session) :
    (adjust_client_difficulty tpl now s).1.authorized = s.authorized := by
  simp only [adjust_client_difficulty]
  split <;> rfl

/-- Every authorized submit with at least five params is replied `result =
true`, is credited once with `(worker, nonce)`, and leaves the session
authorized. This is the whole gate the source applies to a share. -/
theorem submit_step_accepts (cfg : ServerConfig) (tpl : BlockTemplate) (now : ℚ)
    (s : Session) (id : Nat) (params : List String)
    (hauth : s.authorized = true) (hlen : 5 ≤ params.length) :
    (handle_stratum_request cfg tpl now s (.submit id params)).reply =
        some ⟨id, .rBool true, none⟩ ∧
    (handle_stratum_request cfg tpl now s (.submit id params)).credited =
        [(params.getD 0 "", params.getD 4 "")] ∧
    (handle_stratum_request cfg tpl now s (.submit id params)).session.authorized =
        true := by
  have hc : 5 ≤ params.length ∧ s.authorized = true := ⟨hlen, hauth⟩
  simp [handle_stratum_request, hc, adjust_authorized, hauth]

/-- The first component of Python `max`. -/
theorem maxQ_left_le (a b : ℚ) : a ≤ maxQ a b := by
  unfold maxQ; split <;> linarith

/-- A common lower bound of both arguments bounds Python `min`. -/
theorem minQ_ge (a b c : ℚ) (h1 : c ≤ a) (h2 : c ≤ b) : c ≤ minQ a b := by
  unfold minQ; split <;> linarith

/-- Above the floor, the claim's clamp is just the 1e8 cap. -/
theorem specClamp_of_ge (x : ℚ) (h : 1000 ≤ x) : specClamp x = minQ x 100000000 := by
  unfold specClamp maxQ
  rw [if_neg]
  linarith

/-- Whenever the source's transaction-count packer succeeds, it produces the
varint encoding. -/
theorem packTxCount_eq_specVarint (n : Nat) (v : Bytes) (h : packTxCount n = some v) :
    v = specVarint n := by
  unfold packTxCount at h
  unfold specVarint
  split_ifs at h ⊢ <;> simp_all

/-- Claim C1 (refuted; the code is the bug): the submit path never computes a
pool target and never compares the header hash against one — every
authorized `mining.submit` with well-formed arity is answered
`result = true` and credited, whatever `H` is. In particular, at the
concrete fixture submission the claim's `H` (reversed double-SHA-256 of the
reassembled header, read big-endian) is far above the pool target for the
session difficulty 10000, yet the reply is `result = true` with no error
and the share is counted. -/
theorem C1_submit_accepted_regardless_of_pool_target :
    (∀ (cfg : ServerConfig) (tpl : BlockTemplate) (now : ℚ) (s : Session)
        (id : Nat) (w jid en2 nt non : String) (rest : List String),
      (handle_stratum_request cfg tpl now { s with authorized := true }
          (.submit id (w :: jid :: en2 :: nt :: non :: rest))).reply =
        some ⟨id, .rBool true, none⟩ ∧
      (handle_stratum_request cfg tpl now { s with authorized := true }
          (.submit id (w :: jid :: en2 :: nt :: non :: rest))).credited = [(w, non)]) ∧
    specPoolTarget 10000 ≤
      headerHashValue (buildHeader tplEasy
        (build_merkle_root
          (double_sha256 (build_coinbase_tx tplEasy "0000abcd" (hexStrToBytes "deadbeef") "miner1"))
          tplEasy.transactions)
        (hexStrToNat "65f00000") (hexStrToNat "12345678")) ∧
    (handle_stratum_request cfg0 tplEasy 1 sAuth (.submit 7 submitParams)).reply =
      some ⟨7, .rBool true, none⟩ := by
  refine ⟨fun cfg tpl now s id w jid en2 nt non rest => ?_, by decide,
    (submit_step_accepts cfg0 tplEasy 1 sAuth 7 submitParams rfl (by decide)).1⟩
  have hstep := submit_step_accepts cfg tpl now { s with authorized := true } id
    (w :: jid :: en2 :: nt :: non :: rest) rfl (by simp)
  exact ⟨hstep.1, by simpa using hstep.2.1⟩

/-- Claim C4 counterexample: resubmitting the very same
`(job_id, extranonce2, ntime, nonce)` tuple on the same session is *not*
rejected with `DuplicateShare` — both submissions are answered
`result = true` and both are credited to the worker. -/
theorem C4_resubmitted_share_credited_again :
    (handle_stratum_request cfg0 tplEasy 1 sAuth (.submit 7 submitParams)).reply =
        some ⟨7, .rBool true, none⟩ ∧
    (handle_stratum_request cfg0 tplEasy 1 sAuth (.submit 7 submitParams)).credited =
        [("miner1", "12345678")] ∧
    (handle_stratum_request cfg0 tplEasy 2
        (handle_stratum_request cfg0 tplEasy 1 sAuth (.submit 7 submitParams)).session
        (.submit 8 submitParams)).reply = some ⟨8, .rBool true, none⟩ ∧
    (handle_stratum_request cfg0 tplEasy 2
        (handle_stratum_request cfg0 tplEasy 1 sAuth (.submit 7 submitParams)).session
        (.submit 8 submitParams)).credited = [("miner1", "12345678")] := by
  have h1 := submit_step_accepts cfg0 tplEasy 1 sAuth 7 submitParams rfl (by decide)
  have h2 := submit_step_accepts cfg0 tplEasy 2
    (handle_stratum_request cfg0 tplEasy 1 sAuth (.submit 7 submitParams)).session
    8 submitParams h1.2.2 (by decide)
  exact ⟨h1.1, by simpa using h1.2.1, h2.1, by simpa using h2.2.1⟩

/-- Claim C4 as amended: the session keeps no duplicate-share set at all —
replaying an already-credited `(job_id, extranonce2, ntime, nonce)` on the
same authorized session is accepted again (`result = true`) and credited
again, for every session, template and tuple. -/
theorem C4_no_duplicate_detection (cfg : ServerConfig) (tpl : BlockTemplate)
    (now1 now2 : ℚ) (s : Session) (id1 id2 : Nat) (w jid en2 nt non : String)
    (rest : List String) :
    (handle_stratum_request cfg tpl now1 { s with authorized := true }
        (.submit id1 (w :: jid :: en2 :: nt :: non :: rest))).reply =
      some ⟨id1, .rBool true, none⟩ ∧
    (handle_stratum_request cfg tpl now1 { s with authorized := true }
        (.submit id1 (w :: jid :: en2 :: nt :: non :: rest))).credited = [(w, non)] ∧
    (handle_stratum_request cfg tpl now2
        (handle_stratum_request cfg tpl now1 { s with authorized := true }
          (.submit id1 (w :: jid :: en2 :: nt :: non :: rest))).session
        (.submit id2 (w :: jid :: en2 :: nt :: non :: rest))).reply =
      some ⟨id2, .rBool true, none⟩ ∧
    (handle_stratum_request cfg tpl now2
        (handle_stratum_request cfg tpl now1 { s with authorized := true }
          (.submit id1 (w :: jid :: en2 :: nt :: non :: rest))).session
        (.submit id2 (w :: jid :: en2 :: nt :: non :: rest))).credited = [(w, non)] := by
  have h1 := submit_step_accepts cfg tpl now1 { s with authorized := true } id1
    (w :: jid :: en2 :: nt :: non :: rest) rfl (by simp)
  have h2 := submit_step_accepts cfg tpl now2
    (handle_stratum_request cfg tpl now1 { s with authorized := true }
      (.submit id1 (w :: jid :: en2 :: nt :: non :: rest))).session
    id2 (w :: jid :: en2 :: nt :: non :: rest) h1.2.2 (by simp)
  exact ⟨h1.1, by simpa using h1.2.1, h2.1, by simpa using h2.2.1⟩

/-- Claim C5 (confirmed): for every session and every `mining.submit`,
either the session is in the Authorized state, or the request is answered
`result = false` with error `[23, "Unauthorized or invalid share"]` and
nothing changes — no reply with `result = true`, no crediting, no state
change, no frames. Hence no sequence of messages lets an unauthorized
session have a submit accepted. -/
theorem C5_submit_gated_on_authorization (cfg : ServerConfig) (tpl : BlockTemplate)
    (now : ℚ) (s : Session) (id : Nat) (params : List String) :
    s.authorized = true ∨
      handle_stratum_request cfg tpl now s (.submit id params) =
        ⟨s, some ⟨id, .rBool false, some (23, "Unauthorized or invalid share")⟩,
          [], [], none⟩ := by
  by_cases h : s.authorized = true
  · exact Or.inl h
  · refine Or.inr ?_
    have h' : s.authorized = false := by
      cases hb : s.authorized
      · rfl
      · exact absurd hb h
    simp [handle_stratum_request, h']

/-- Claim C6 (confirmed): on the claim's regions (`Δt < 1`, `[1,5)`,
`[5,15)`, `[15,45]`, `> 60`), and for any current difficulty at or above the
floor 1000 (an invariant: the second conjunct shows the adjustment preserves
it, and the initial difficulty is 10000), the new difficulty equals the
claim's adjustment table clamped to `[1000, 1e8]`. -/
theorem C6_vardiff_adjustment_table (d dt : ℚ) (hd : 1000 ≤ d) :
    (dt ≤ 45 ∨ 60 < dt →
      newDifficulty d dt = specClamp (specVardiffTable d dt)) ∧
    1000 ≤ newDifficulty d dt := by
  have hm1 : (10:ℚ) ≤ maxQ 10 (30 / maxQ dt (1/100)) := maxQ_left_le _ _
  have hm2 : (5:ℚ) ≤ maxQ 5 (30 / maxQ dt (1/10)) := maxQ_left_le _ _
  have hm3 : (1000:ℚ) ≤ maxQ 1000 (d * (7/10)) := maxQ_left_le _ _
  have hc1 : 1000 ≤ d * maxQ 10 (30 / maxQ dt (1/100)) := by nlinarith
  have hc2 : 1000 ≤ d * maxQ 5 (30 / maxQ dt (1/10)) := by nlinarith
  have hc3 : 1000 ≤ d * 2 := by nlinarith
  constructor
  · intro hreg
    simp only [newDifficulty, specVardiffTable]
    split_ifs with h1 h2 h3 h4 h5 <;>
      first
        | (exfalso; rcases hreg with hr | hr <;> linarith)
        | rw [specClamp_of_ge _ hc1]
        | rw [specClamp_of_ge _ hc2]
        | rw [specClamp_of_ge _ hc3]
        | rw [specClamp_of_ge _ hm3]
        | rw [specClamp_of_ge _ hd]
  · simp only [newDifficulty]
    split_ifs <;>
      first
        | exact minQ_ge _ _ _ hc1 (by norm_num)
        | exact minQ_ge _ _ _ hc2 (by norm_num)
        | exact minQ_ge _ _ _ hc3 (by norm_num)
        | exact minQ_ge _ _ _ hm3 (by norm_num)
        | exact minQ_ge _ _ _ hd (by norm_num)

/-- Witness for C6 at `D = 10000`, `Δt = 30` (the dead band: unchanged). -/
theorem C6_vardiff_adjustment_table_witness :
    newDifficulty 10000 30 = specClamp (specVardiffTable 10000 30) ∧
    1000 ≤ newDifficulty 10000 30 :=
  ⟨(C6_vardiff_adjustment_table 10000 30 (by norm_num)).1 (Or.inl (by norm_num)),
    (C6_vardiff_adjustment_table 10000 30 (by norm_num)).2⟩

/-- Claim C7 (confirmed): whenever a vardiff adjustment changes the
difficulty by more than 5% of the current value, the frames pushed on the
session's socket are exactly a `mining.set_difficulty` carrying the new
difficulty followed by a fresh `mining.notify` whose `clean_jobs` is
`true`, in that order. -/
theorem C7_significant_change_sends_setdiff_then_clean_job (tpl : BlockTemplate)
    (now : ℚ) (s : Session)
    (h : s.difficulty * (5/100) <
      absQ ((adjust_client_difficulty tpl now s).1.difficulty - s.difficulty)) :
    (adjust_client_difficulty tpl now s).2 =
      [Msg.set_difficulty (adjust_client_difficulty tpl now s).1.difficulty,
        send_job_to_client tpl (adjust_client_difficulty tpl now s).1] ∧
    cleanJobsOf (send_job_to_client tpl (adjust_client_difficulty tpl now s).1) =
      some true := by
  have hd : (adjust_client_difficulty tpl now s).1.difficulty =
      newDifficulty s.difficulty (now - s.last_share_time) := by
    simp only [adjust_client_difficulty]
    split <;> rfl
  rw [hd] at h
  constructor
  · by_cases hc : s.difficulty * (5/100) <
        absQ (newDifficulty s.difficulty (now - s.last_share_time) - s.difficulty)
    · simp only [adjust_client_difficulty]
      rw [if_pos hc]
    · exact absurd h hc
  · rfl

/-- Witness for C7: a share half a second after the previous one at
difficulty 10000 jumps to 600000, a change far beyond 5%. -/
theorem C7_significant_change_sends_setdiff_then_clean_job_witness :
    (adjust_client_difficulty tplEasy (1/2) sAuth).2 =
      [Msg.set_difficulty (adjust_client_difficulty tplEasy (1/2) sAuth).1.difficulty,
        send_job_to_client tplEasy (adjust_client_difficulty tplEasy (1/2) sAuth).1] ∧
    cleanJobsOf (send_job_to_client tplEasy (adjust_client_difficulty tplEasy (1/2) sAuth).1) =
      some true :=
  C7_significant_change_sends_setdiff_then_clean_job tplEasy (1/2) sAuth (by
    simp only [sAuth, adjust_client_difficulty, newDifficulty, maxQ, minQ, absQ]
    norm_num)

/-- Claim C8 (confirmed): every block the validator serializes carries, right
after the 80-byte header, exactly `varint(1 + number of template
transactions)` under the claimed encoding (1 byte below `0xFD`;
`0xFD ++ u16`; `0xFE ++ u32`; `0xFF ++ u64`), followed by the coinbase and
the raw transactions; and that varint encoding round-trips on the claim's
seven sample values. (For counts `≥ 2^32` the source's packer raises and no
block is serialized at all, so every serialized block satisfies this.) -/
theorem C8_block_txcount_is_varint (tpl : BlockTemplate) (e1 w en2 nt non : String)
    (h : validate_and_submit_block tpl e1 w en2 nt non ≠ none) :
    (validate_and_submit_block tpl e1 w en2 nt non).getD [] =
      buildHeader tpl
        (build_merkle_root
          (double_sha256 (build_coinbase_tx tpl e1 (hexStrToBytes en2) w))
          tpl.transactions)
        (hexStrToNat nt) (hexStrToNat non) ++
      specVarint (1 + tpl.transactions.length) ++
      build_coinbase_tx tpl e1 (hexStrToBytes en2) w ++
      (tpl.transactions.map fun tx => hexStrToBytes tx.data).flatten ∧
    (∀ n ∈ ([0, 0xFC, 0xFD, 0xFFFF, 0x10000, 0xFFFFFFFF, 0x100000000] : List Nat),
      decodeVarint (specVarint n) = some n) := by
  constructor
  · rcases hp : packTxCount (tpl.transactions.length + 1) with _ | v
    · exfalso
      apply h
      simp only [validate_and_submit_block, hp]
      split <;> rfl
    · have hv := packTxCount_eq_specVarint _ _ hp
      simp only [validate_and_submit_block, hp] at h ⊢
      split_ifs at h ⊢ with hcond
      · simp [hv, Nat.add_comm, List.append_assoc]
      · exact absurd rfl h
  · intro n hn
    fin_cases hn <;> decide

/-- Witness for C8: the fixture submission against the trivially easy
network target does serialize a block, and its body decomposes as the
theorem states; varint round-trips at `2^32`. -/
theorem C8_block_txcount_is_varint_witness :
    (validate_and_submit_block tplEasy "0000abcd" "miner1" "deadbeef"
        "65f00000" "12345678").getD [] =
      buildHeader tplEasy
        (build_merkle_root
          (double_sha256 (build_coinbase_tx tplEasy "0000abcd" (hexStrToBytes "deadbeef") "miner1"))
          tplEasy.transactions)
        (hexStrToNat "65f00000") (hexStrToNat "12345678") ++
      specVarint (1 + tplEasy.transactions.length) ++
      build_coinbase_tx tplEasy "0000abcd" (hexStrToBytes "deadbeef") "miner1" ++
      (tplEasy.transactions.map fun tx => hexStrToBytes tx.data).flatten ∧
    decodeVarint (specVarint 4294967296) = some 4294967296 := by
  have h := C8_block_txcount_is_varint tplEasy "0000abcd" "miner1" "deadbeef"
    "65f00000" "12345678" (by decide)
  exact ⟨h.1, h.2 4294967296 (by norm_num)⟩

end PBpool
